import Mathlib

/-!
# Verification of `slidingwindow/SlidingWindow.py`

A shallow embedding of the sliding-window layout library in
`src/slidingwindow/SlidingWindow.py`, together with theorems settling the
specification claims about it.

Modelling conventions:

* Python integers are `Int` (arbitrary precision, so no wraparound).
* The float parameter `overlapPercent` is modelled exactly as a rational
  number `ℚ`; `int(math.floor(x))` becomes `Int.floor` on `ℚ`.
* A Python function that can raise an exception becomes a function into
  `Except PyError _`.  The source's `raise Error(...)` statements reference
  a name `Error` that is nowhere defined, so at runtime Python raises an
  exception (a `NameError`) at exactly those program points; each raising
  program point is modelled by the `PyError` constructor naming the failure
  kind of that site.  `range(a, b, 0)` raises `ValueError` in Python, which
  is modelled by guarding the step before building the offset lists.
* `dimOrder` and `iterOrder` values are, as in the source, plain lists of
  strings compared with `==`; an arbitrary `List String` can be supplied.
-/

/-- Failure kinds for the exception-raising program points of the code:
`valueError` for `range(..., 0)` (and `list.index` misses), `zeroDivision`
for division by a zero window count, `indexError` for shape subscripts out
of range, and the two `raise Error(...)` sites in `indices` /
`iterate_dims`. -/
inductive PyError : Type where
  | valueError : PyError
  | zeroDivision : PyError
  | indexError : PyError
  | unsupportedDimOrder : PyError
  | unsupportedIterOrder : PyError
  deriving DecidableEq

/-- A single component of the tuple-of-slices returned by
`SlidingWindow.indices`: `slice(None, None)` (select everything on that
axis) or `slice(start, stop)` (the half-open index range `[start, stop)`).
 -/
inductive Slice : Type where
  | all : Slice
  | range (start stop : Int) : Slice
  deriving DecidableEq

/-- The set of indices a `Slice` selects on an axis:
`slice(a, b)` selects exactly the half-open range `[a, b)`. -/
def Slice.selects : Slice → Int → Bool
  | .all, _ => true
  | .range a b, i => decide (a ≤ i ∧ i < b)

namespace DimOrder

/-- `DimOrder.ChannelHeightWidth = ['c', 'h', 'w']` (channel-first). -/
def ChannelHeightWidth : List String := ["c", "h", "w"]

/-- `DimOrder.HeightWidthChannel = ['h', 'w', 'c']` (channel-last). -/
def HeightWidthChannel : List String := ["h", "w", "c"]

end DimOrder

namespace IterOrder

/-- `IterOrder.TransformHeightWidth = ['t', 'y', 'x']`: dimensions listed
innermost first, so `x` varies slowest. -/
def TransformHeightWidth : List String := ["t", "y", "x"]

/-- `IterOrder.TransformWidthHeight = ['t', 'x', 'y']`: dimensions listed
innermost first, so `y` varies slowest. -/
def TransformWidthHeight : List String := ["t", "x", "y"]

end IterOrder

/-- The `SlidingWindow` value object: rectangle `(x, y, w, h)`, the declared
dimension order of the bound dataset, and an optional transform.  The
transform is opaque to the layout engine, so it is a type parameter `α`
(in `apply` it is instantiated with an actual function type). -/
structure SlidingWindow (α : Type) : Type where
  x : Int
  y : Int
  w : Int
  h : Int
  dimOrder : List String
  transform : Option α
  deriving DecidableEq

/-- `SlidingWindow.indices` (source lines 55-87): the tuple of slices for
this window.  For `HeightWidthChannel` it is the 2-element spatial crop;
for `ChannelHeightWidth` it is prefixed by `slice(None, None)` exactly when
`includeChannel is True`; any other dimension order reaches
`raise Error('Unsupported order of dimensions: ...')`. -/
def SlidingWindow.indices {α : Type} (win : SlidingWindow α) (includeChannel : Bool) :
    Except PyError (List Slice) :=
  if win.dimOrder = DimOrder.HeightWidthChannel then
    Except.ok [Slice.range win.y (win.y + win.h), Slice.range win.x (win.x + win.w)]
  else if win.dimOrder = DimOrder.ChannelHeightWidth then
    if includeChannel = true then
      Except.ok [Slice.all, Slice.range win.y (win.y + win.h), Slice.range win.x (win.x + win.w)]
    else
      Except.ok [Slice.range win.y (win.y + win.h), Slice.range win.x (win.x + win.w)]
  else
    Except.error PyError.unsupportedDimOrder

/-- `SlidingWindow.apply` (source lines 36-41): slice the matrix with
`self.indices()` (Python's default argument `includeChannel=True`), then
return `self.transform(view) if self.transform != None else view`.
The external array collaborator is abstract: a matrix of type `M` together
with its subscript operation `getItem : M → List Slice → V`. -/
def SlidingWindow.apply {M V : Type} (win : SlidingWindow (V → V))
    (getItem : M → List Slice → V) (matrix : M) : Except PyError V :=
  match win.indices true with
  | Except.error e => Except.error e
  | Except.ok idx =>
    match win.transform with
    | some f => Except.ok (f (getItem matrix idx))
    | none => Except.ok (getItem matrix idx)

/-- `iterate_dims` (source lines 109-121): the offset/transform
cross-product as nested loops.  `TransformHeightWidth` runs `x` outermost,
then `y`, then the transforms; `TransformWidthHeight` runs `y` outermost;
any other value reaches `raise Error('Unsupported iteration order: ...')`.
The Python generator is consumed eagerly by the caller, so it is modelled
as the produced list. -/
def iterate_dims {α β γ : Type} (xVals : List α) (yVals : List β) (tVals : List γ)
    (iterorder : List String) : Except PyError (List (α × β × γ)) :=
  if iterorder = IterOrder.TransformHeightWidth then
    Except.ok (xVals.flatMap fun xv => yVals.flatMap fun yv => tVals.map fun t => (xv, yv, t))
  else if iterorder = IterOrder.TransformWidthHeight then
    Except.ok (yVals.flatMap fun yv => xVals.flatMap fun xv => tVals.map fun t => (xv, yv, t))
  else
    Except.error PyError.unsupportedIterOrder

/-- Number of elements of Python's `range(start, stop, step)` for a nonzero
step: `max 0 (ceil ((stop - start) / step))`, written with Euclidean
integer division by the positive number `|step|` (which agrees with
Python's floor division for positive divisors). -/
def pyRangeLen (start stop step : Int) : Nat :=
  if 0 < step then ((stop - start + step - 1) / step).toNat
  else ((start - stop + (-step) - 1) / (-step)).toNat

/-- Python's `list(range(start, stop, step))` for a nonzero step. -/
def pyRange (start stop step : Int) : List Int :=
  (List.range (pyRangeLen start stop step)).map fun (k : Nat) => start + (k : Int) * step

/-- Source lines 130-136: `windowSizeX = maxWindowSize if overrideWidth is
None else overrideWidth`, then clipped with `min(windowSizeX, width)`. -/
def clipWindowSize (maxWindowSize : Int) (override : Option Int) (extent : Int) : Int :=
  min (override.getD maxWindowSize) extent

/-- Source lines 139-140: `int(math.floor(windowSize * overlapPercent))`,
with the float multiplication modelled exactly over `ℚ`. -/
def windowOverlap (windowSize : Int) (overlapPercent : ℚ) : Int :=
  ⌊(windowSize : ℚ) * overlapPercent⌋

/-- Source lines 141-142: `stepSize = windowSize - windowOverlap`. -/
def stepSize (windowSize : Int) (overlapPercent : ℚ) : Int :=
  windowSize - windowOverlap windowSize overlapPercent

/-- Source lines 145-155 for one axis: `last = extent - windowSize`,
`offsets = list(range(0, last+1, step))`, and
`if len(offsets) == 0 or offsets[-1] != last: offsets.append(last)`. -/
def axisOffsets (extent windowSize step : Int) : List Int :=
  let offs := pyRange 0 (extent - windowSize + 1) step
  if offs = [] ∨ offs.getLast? ≠ some (extent - windowSize) then
    offs ++ [extent - windowSize]
  else
    offs

/-- `generateForSize` (source lines 124-169).  The two `list(range(...))`
calls raise `ValueError` when the corresponding step size is 0, hence the
guard; otherwise the offsets are crossed with `[None] + transforms` by
`iterate_dims` and each triple becomes a `SlidingWindow` with extent
`(windowSizeX, windowSizeY)`. -/
def generateForSize {α : Type} (width height : Int) (dimOrder : List String)
    (maxWindowSize : Int) (overlapPercent : ℚ) (transforms : List α)
    (overrideWidth overrideHeight : Option Int) (iterorder : List String) :
    Except PyError (List (SlidingWindow α)) :=
  if stepSize (clipWindowSize maxWindowSize overrideWidth width) overlapPercent = 0 ∨
      stepSize (clipWindowSize maxWindowSize overrideHeight height) overlapPercent = 0 then
    Except.error PyError.valueError
  else
    Except.map
      (List.map fun p =>
        (⟨p.1, p.2.1, clipWindowSize maxWindowSize overrideWidth width,
          clipWindowSize maxWindowSize overrideHeight height, dimOrder, p.2.2⟩ :
          SlidingWindow α))
      (iterate_dims
        (axisOffsets width (clipWindowSize maxWindowSize overrideWidth width)
          (stepSize (clipWindowSize maxWindowSize overrideWidth width) overlapPercent))
        (axisOffsets height (clipWindowSize maxWindowSize overrideHeight height)
          (stepSize (clipWindowSize maxWindowSize overrideHeight height) overlapPercent))
        ((none : Option α) :: transforms.map some)
        iterorder)

/-- Python's `someList.index(tag)`: first index of `tag`, `ValueError` when
absent. -/
def pyListIndex (l : List String) (tag : String) : Except PyError Nat :=
  match l.findIdx? (· == tag) with
  | some i => Except.ok i
  | none => Except.error PyError.valueError

/-- Python's `shape[i]` for a nonnegative index: `IndexError` out of range. -/
def pyShapeGet (shape : List Int) (i : Nat) : Except PyError Int :=
  match shape.get? i with
  | some v => Except.ok v
  | none => Except.error PyError.indexError

/-- `generateForNumberOfWindows` (source lines 197-224), with the dataset
represented by its shape tuple.  Reads `width = shape[dimOrder.index('w')]`
and `height = shape[dimOrder.index('h')]`, takes `(countY, countX) =
windowCount`, derives `windowSize = math.ceil(extent / count)` per axis
(raising `ZeroDivisionError` for a zero count, as Python's `/` does), and
delegates to `generateForSize` with `maxWindowSize = 0` and both overrides
set. -/
def generateForNumberOfWindows {α : Type} (shape : List Int) (dimOrder : List String)
    (windowCount : Int × Int) (overlapPercent : ℚ) (transforms : List α)
    (iterorder : List String) : Except PyError (List (SlidingWindow α)) := do
  let wi ← pyListIndex dimOrder "w"
  let width ← pyShapeGet shape wi
  let hi ← pyListIndex dimOrder "h"
  let height ← pyShapeGet shape hi
  if windowCount.2 = 0 then
    Except.error PyError.zeroDivision
  else if windowCount.1 = 0 then
    Except.error PyError.zeroDivision
  else
    generateForSize width height dimOrder 0 overlapPercent transforms
      (some ⌈(width : ℚ) / (windowCount.2 : ℚ)⌉)
      (some ⌈(height : ℚ) / (windowCount.1 : ℚ)⌉)
      iterorder

/-! ## Helper lemmas about the embedded definitions -/

/-- `floor(windowSize * 0) = 0`: with a zero overlap fraction there is no
overlap. -/
theorem windowOverlap_zero (ws : Int) : windowOverlap ws 0 = 0 := by
  simp [windowOverlap]

/-- With a zero overlap fraction the step size equals the window size. -/
theorem stepSize_zero (ws : Int) : stepSize ws 0 = ws := by
  simp [stepSize, windowOverlap]

/-- Index `k` is inside `range(0, stop, step)` (positive step) exactly when
`k * step < stop`. -/
lemma lt_pyRangeLen_iff {stop step : Int} (hstep : 0 < step) (k : Nat) :
    k < pyRangeLen 0 stop step ↔ (k : Int) * step < stop := by
  unfold pyRangeLen
  rw [if_pos hstep, Int.lt_toNat,
    show stop - 0 + step - 1 = (stop - 1) + 1 * step by ring,
    Int.add_mul_ediv_right _ _ (by omega : step ≠ 0)]
  constructor
  · intro h
    have hk2 : (k : Int) ≤ (stop - 1) / step := by omega
    have h3 := (Int.le_ediv_iff_mul_le hstep).mp hk2
    linarith
  · intro h
    have h3 : (k : Int) * step ≤ stop - 1 := by linarith
    have h4 := (Int.le_ediv_iff_mul_le hstep).mpr h3
    omega

/-- Membership in `range(0, stop, step)` for a positive step: exactly the
nonnegative multiples of `step` below `stop`. -/
lemma mem_pyRange_iff {stop step o : Int} (hstep : 0 < step) :
    o ∈ pyRange 0 stop step ↔ ∃ k : Nat, o = (k : Int) * step ∧ o < stop := by
  unfold pyRange
  simp only [List.mem_map, List.mem_range]
  constructor
  · rintro ⟨k, hk, rfl⟩
    have h3 := (lt_pyRangeLen_iff hstep k).mp hk
    exact ⟨k, by ring, by linarith⟩
  · rintro ⟨k, rfl, hlt⟩
    exact ⟨k, (lt_pyRangeLen_iff hstep k).mpr hlt, by ring⟩

/-- The `k`-th element of `range(start, stop, step)` is `start + k * step`. -/
lemma pyRange_get {start stop step : Int} {k : Nat}
    (hk : k < (pyRange start stop step).length) :
    (pyRange start stop step).get ⟨k, hk⟩ = start + (k : Int) * step := by
  simp only [pyRange, List.get_eq_getElem, List.getElem_map, List.getElem_range]

/-- The final offset `extent - windowSize` is always in the offset list
(this is exactly what the `append` on source lines 152-155 guarantees). -/
lemma last_mem_axisOffsets (extent ws step : Int) :
    extent - ws ∈ axisOffsets extent ws step := by
  simp only [axisOffsets]
  split
  · exact List.mem_append_right _ (by simp)
  · rename_i hc
    push_neg at hc
    obtain ⟨hne, hlast⟩ := hc
    obtain ⟨hne2, heq⟩ := List.mem_getLast?_eq_getLast (Option.mem_def.mpr hlast)
    have hmem := List.getLast_mem hne2
    rw [← heq] at hmem
    exact hmem

/-- Every generated (pre-append) offset is in the final offset list. -/
lemma mem_axisOffsets_of_mem {extent ws step o : Int}
    (h : o ∈ pyRange 0 (extent - ws + 1) step) : o ∈ axisOffsets extent ws step := by
  simp only [axisOffsets]
  split
  · exact List.mem_append_left _ h
  · exact h

/-- Every axis offset is nonnegative and keeps the window inside the axis
extent (for a positive step and a window clipped to the extent). -/
lemma axisOffsets_bounds {extent ws step o : Int} (hstep : 0 < step) (hws : ws ≤ extent)
    (ho : o ∈ axisOffsets extent ws step) : 0 ≤ o ∧ o + ws ≤ extent := by
  have hmem : o ∈ pyRange 0 (extent - ws + 1) step ∨ o = extent - ws := by
    simp only [axisOffsets] at ho
    split at ho
    · rcases List.mem_append.mp ho with h | h
      · exact Or.inl h
      · exact Or.inr (by simpa using h)
    · exact Or.inl ho
  rcases hmem with h | h
  · obtain ⟨k, rfl, hlt⟩ := (mem_pyRange_iff hstep).mp h
    have hk0 : (0 : Int) ≤ (k : Int) := by positivity
    have hnn := mul_nonneg hk0 (le_of_lt hstep)
    exact ⟨hnn, by linarith⟩
  · subst h
    exact ⟨by omega, by omega⟩

/-- Axis coverage: with a positive step of at most the window size, every
coordinate `0 ≤ i < extent` lies inside the window placed at some offset of
the axis offset list. -/
lemma axisOffsets_cover {extent ws step : Int}
    (hstep1 : 1 ≤ step) (hstep2 : step ≤ ws) {i : Int} (hi0 : 0 ≤ i) (hie : i < extent) :
    ∃ o ∈ axisOffsets extent ws step, o ≤ i ∧ i < o + ws := by
  by_cases hc : extent - ws ≤ i
  · exact ⟨extent - ws, last_mem_axisOffsets extent ws step, hc, by omega⟩
  · push_neg at hc
    have hstep0 : (0 : Int) < step := by omega
    have hd0 : 0 ≤ i / step := Int.ediv_nonneg hi0 (by omega)
    have hco : (((i / step).toNat : Int)) = i / step := Int.toNat_of_nonneg hd0
    have hde := Int.ediv_add_emod i step
    rw [Int.mul_comm] at hde
    have hm0 : 0 ≤ i % step := Int.emod_nonneg i (by omega)
    have hml : i % step < step := Int.emod_lt_of_pos i hstep0
    refine ⟨i / step * step, ?_, by linarith, by linarith⟩
    apply mem_axisOffsets_of_mem
    rw [mem_pyRange_iff hstep0]
    exact ⟨(i / step).toNat, by rw [hco], by linarith⟩

/-- For an overlap fraction in `[0, 1)`, a positive step size forces a
positive window size (a nonpositive window would give a nonpositive step). -/
lemma one_le_windowSize_of_step {ws : Int} {q : ℚ} (hq0 : 0 ≤ q) (hq1 : q < 1)
    (hstep : 1 ≤ stepSize ws q) : 1 ≤ ws := by
  by_contra hcon
  push_neg at hcon
  have hws0 : (ws : ℚ) ≤ 0 := by exact_mod_cast (by omega : ws ≤ (0 : Int))
  have hmul : (ws : ℚ) ≤ (ws : ℚ) * q := by nlinarith
  have hfl : ws ≤ windowOverlap ws q := by
    have h2 : (⌊(ws : ℚ)⌋ : Int) ≤ ⌊(ws : ℚ) * q⌋ := Int.floor_le_floor hmul
    rw [Int.floor_intCast] at h2
    exact h2
  unfold stepSize at hstep
  omega

/-- The overlap in pixels is nonnegative for a nonnegative window size and
overlap fraction. -/
lemma windowOverlap_nonneg {ws : Int} {q : ℚ} (hws : 0 ≤ ws) (hq : 0 ≤ q) :
    0 ≤ windowOverlap ws q :=
  Int.floor_nonneg.mpr (mul_nonneg (by exact_mod_cast hws) hq)

/-- The step size never exceeds the window size (overlap is nonnegative). -/
lemma stepSize_le_windowSize {ws : Int} {q : ℚ} (hws : 0 ≤ ws) (hq : 0 ≤ q) :
    stepSize ws q ≤ ws := by
  have h2 := windowOverlap_nonneg hws hq
  unfold stepSize
  omega

/-- The clipped window size never exceeds the axis extent. -/
lemma clipWindowSize_le (m : Int) (o : Option Int) (e : Int) : clipWindowSize m o e ≤ e :=
  min_le_right _ _

/-- For either of the two supported iteration orders, `iterate_dims`
succeeds. -/
lemma iterate_dims_isOk {α β γ : Type} (xs : List α) (ys : List β) (ts : List γ)
    {io : List String}
    (hio : io = IterOrder.TransformHeightWidth ∨ io = IterOrder.TransformWidthHeight) :
    ∃ tr, iterate_dims xs ys ts io = Except.ok tr := by
  rcases hio with h | h <;> subst h
  · exact ⟨_, by unfold iterate_dims; rw [if_pos rfl]⟩
  · exact ⟨_, by unfold iterate_dims; rw [if_neg (by decide), if_pos rfl]⟩

/-- The triples produced by a successful `iterate_dims` are exactly the
members of the cross-product of the three input lists. -/
lemma iterate_dims_ok_mem {α β γ : Type} {xs : List α} {ys : List β} {ts : List γ}
    {io : List String} {l : List (α × β × γ)}
    (hok : iterate_dims xs ys ts io = Except.ok l) (p : α × β × γ) :
    p ∈ l ↔ p.1 ∈ xs ∧ p.2.1 ∈ ys ∧ p.2.2 ∈ ts := by
  unfold iterate_dims at hok
  split_ifs at hok with h1 h2
  · injection hok with hl
    subst hl
    obtain ⟨a, b, c⟩ := p
    simp only [List.mem_flatMap, List.mem_map, Prod.mk.injEq]
    constructor
    · rintro ⟨xv, hxv, yv, hyv, t, ht, rfl, rfl, rfl⟩
      exact ⟨hxv, hyv, ht⟩
    · rintro ⟨ha, hb, hc⟩
      exact ⟨a, ha, b, hb, c, hc, rfl, rfl, rfl⟩
  · injection hok with hl
    subst hl
    obtain ⟨a, b, c⟩ := p
    simp only [List.mem_flatMap, List.mem_map, Prod.mk.injEq]
    constructor
    · rintro ⟨yv, hyv, xv, hxv, t, ht, rfl, rfl, rfl⟩
      exact ⟨hxv, hyv, ht⟩
    · rintro ⟨ha, hb, hc⟩
      exact ⟨b, hb, a, ha, c, hc, rfl, rfl, rfl⟩

/-- Successful-run characterization of `generateForSize`: when both step
sizes are nonzero and the iteration order is one of the two supported ones,
the call returns a list whose members are exactly the windows built from an
x-offset, a y-offset and an entry of `[None] + transforms`. -/
lemma generateForSize_eq_ok {α : Type} {width height maxWindowSize : Int} {q : ℚ}
    {dimOrder : List String} {ts : List α} {ow oh : Option Int} {io : List String}
    (hx : stepSize (clipWindowSize maxWindowSize ow width) q ≠ 0)
    (hy : stepSize (clipWindowSize maxWindowSize oh height) q ≠ 0)
    (hio : io = IterOrder.TransformHeightWidth ∨ io = IterOrder.TransformWidthHeight) :
    ∃ l, generateForSize width height dimOrder maxWindowSize q ts ow oh io = Except.ok l ∧
      ∀ win : SlidingWindow α, win ∈ l ↔
        win.x ∈ axisOffsets width (clipWindowSize maxWindowSize ow width)
          (stepSize (clipWindowSize maxWindowSize ow width) q) ∧
        win.y ∈ axisOffsets height (clipWindowSize maxWindowSize oh height)
          (stepSize (clipWindowSize maxWindowSize oh height) q) ∧
        win.w = clipWindowSize maxWindowSize ow width ∧
        win.h = clipWindowSize maxWindowSize oh height ∧
        win.dimOrder = dimOrder ∧
        win.transform ∈ (none : Option α) :: ts.map some := by
  obtain ⟨tr, htr⟩ := iterate_dims_isOk
    (axisOffsets width (clipWindowSize maxWindowSize ow width)
      (stepSize (clipWindowSize maxWindowSize ow width) q))
    (axisOffsets height (clipWindowSize maxWindowSize oh height)
      (stepSize (clipWindowSize maxWindowSize oh height) q))
    ((none : Option α) :: ts.map some) hio
  refine ⟨tr.map (fun p => (⟨p.1, p.2.1, clipWindowSize maxWindowSize ow width,
    clipWindowSize maxWindowSize oh height, dimOrder, p.2.2⟩ : SlidingWindow α)), ?_, ?_⟩
  · unfold generateForSize
    rw [if_neg (not_or.mpr ⟨hx, hy⟩), htr]
    rfl
  · intro win
    constructor
    · intro hwin
      obtain ⟨p, hp, hfp⟩ := List.mem_map.mp hwin
      have hmem := (iterate_dims_ok_mem htr p).mp hp
      subst hfp
      exact ⟨hmem.1, hmem.2.1, rfl, rfl, rfl, hmem.2.2⟩
    · rintro ⟨h1, h2, h3, h4, h5, h6⟩
      obtain ⟨wx, wy, ww, wh, wd, wt⟩ := win
      dsimp only at h1 h2 h3 h4 h5 h6
      subst h3
      subst h4
      subst h5
      exact List.mem_map.mpr ⟨(wx, wy, wt), (iterate_dims_ok_mem htr _).mpr ⟨h1, h2, h6⟩, rfl⟩

/-- Any window found in any successful result of `generateForSize` is built
from an x-offset, a y-offset, the clipped window sizes and an entry of
`[None] + transforms` (no hypotheses on the iteration order needed). -/
lemma mem_of_generateForSize_ok {α : Type} {width height maxWindowSize : Int} {q : ℚ}
    {dimOrder : List String} {ts : List α} {ow oh : Option Int} {io : List String}
    {l : List (SlidingWindow α)}
    (hok : generateForSize width height dimOrder maxWindowSize q ts ow oh io = Except.ok l)
    {win : SlidingWindow α} (hwin : win ∈ l) :
    win.x ∈ axisOffsets width (clipWindowSize maxWindowSize ow width)
      (stepSize (clipWindowSize maxWindowSize ow width) q) ∧
    win.y ∈ axisOffsets height (clipWindowSize maxWindowSize oh height)
      (stepSize (clipWindowSize maxWindowSize oh height) q) ∧
    win.w = clipWindowSize maxWindowSize ow width ∧
    win.h = clipWindowSize maxWindowSize oh height ∧
    win.dimOrder = dimOrder ∧
    win.transform ∈ (none : Option α) :: ts.map some := by
  unfold generateForSize at hok
  by_cases hg : stepSize (clipWindowSize maxWindowSize ow width) q = 0 ∨
      stepSize (clipWindowSize maxWindowSize oh height) q = 0
  · rw [if_pos hg] at hok
    exact absurd hok (by simp)
  · rw [if_neg hg] at hok
    cases htr : iterate_dims
        (axisOffsets width (clipWindowSize maxWindowSize ow width)
          (stepSize (clipWindowSize maxWindowSize ow width) q))
        (axisOffsets height (clipWindowSize maxWindowSize oh height)
          (stepSize (clipWindowSize maxWindowSize oh height) q))
        ((none : Option α) :: ts.map some) io with
    | error e =>
      rw [htr] at hok
      exact absurd hok (by simp [Except.map])
    | ok tr =>
      rw [htr] at hok
      simp only [Except.map] at hok
      injection hok with hl
      subst hl
      obtain ⟨p, hp, hfp⟩ := List.mem_map.mp hwin
      have hmem := (iterate_dims_ok_mem htr p).mp hp
      subst hfp
      exact ⟨hmem.1, hmem.2.1, rfl, rfl, rfl, hmem.2.2⟩

/-- Cross-product helper: mapping a pair-builder over an inner product. -/
lemma flatMap_map_pair {α β γ : Type} (a : α) (ys : List β) (ts : List γ) :
    (ys.flatMap fun yv => ts.map fun t => (a, yv, t)) = (ys ×ˢ ts).map fun p => (a, p) := by
  induction ys with
  | nil => rfl
  | cons b m ih =>
    rw [List.flatMap_cons, ih, List.product_cons, List.map_append, List.map_map]
    rfl

/-- The `TransformHeightWidth` loop nest of `iterate_dims` produces exactly
the lexicographic product `xs ×ˢ ys ×ˢ ts` (x slowest, transform fastest). -/
lemma flatMap_eq_product {α β γ : Type} (xs : List α) (ys : List β) (ts : List γ) :
    (xs.flatMap fun xv => ys.flatMap fun yv => ts.map fun t => (xv, yv, t)) =
      xs ×ˢ ys ×ˢ ts := by
  induction xs with
  | nil => rfl
  | cons a l ih =>
    rw [List.flatMap_cons, ih, List.product_cons, flatMap_map_pair]

/-- Cross-product helper with the middle component fixed. -/
lemma flatMap_map_pair2 {α β γ : Type} (b : β) (xs : List α) (ts : List γ) :
    (xs.flatMap fun xv => ts.map fun t => (xv, b, t)) =
      (xs ×ˢ ts).map fun c => (c.1, b, c.2) := by
  induction xs with
  | nil => rfl
  | cons a l ih =>
    rw [List.flatMap_cons, ih, List.product_cons, List.map_append, List.map_map]
    rfl

/-- The `TransformWidthHeight` loop nest of `iterate_dims` produces the
lexicographic product `ys ×ˢ xs ×ˢ ts` (y slowest) with the first two
components swapped back into `(x, y, t)` form. -/
lemma flatMap_eq_product_swap {α β γ : Type} (xs : List α) (ys : List β) (ts : List γ) :
    (ys.flatMap fun yv => xs.flatMap fun xv => ts.map fun t => (xv, yv, t)) =
      (ys ×ˢ xs ×ˢ ts).map fun p => (p.2.1, p.1, p.2.2) := by
  induction ys with
  | nil => rfl
  | cons b m ih =>
    rw [List.flatMap_cons, ih, List.product_cons, List.map_append, List.map_map,
      flatMap_map_pair2]
    rfl

/-- Flattening a transform block over a product of offset pairs equals the
corresponding nested loops (used for the frame/fresh-list claim). -/
lemma product_flatMap {α β γ : Type} (xs : List α) (ys : List β) (ts : List γ) :
    ((xs ×ˢ ys).flatMap fun p => ts.map fun t => (p.1, p.2, t)) =
      xs.flatMap fun x => ys.flatMap fun y => ts.map fun t => (x, y, t) := by
  induction xs with
  | nil => rfl
  | cons a l ih =>
    rw [List.product_cons, List.flatMap_append, ih, List.flatMap_cons]
    congr 1
    rw [List.flatMap_map]

/-- Variant of `product_flatMap` with the offset pair components swapped. -/
lemma product_swap_flatMap {α β γ : Type} (xs : List α) (ys : List β) (ts : List γ) :
    ((ys ×ˢ xs).flatMap fun p => ts.map fun t => (p.2, p.1, t)) =
      ys.flatMap fun y => xs.flatMap fun x => ts.map fun t => (x, y, t) := by
  induction ys with
  | nil => rfl
  | cons b m ih =>
    rw [List.product_cons, List.flatMap_append, ih, List.flatMap_cons]
    congr 1
    rw [List.flatMap_map]

/-! ## Claim theorems -/

/-- Claim C1 (coverage): for every width ≥ 1 and height ≥ 1, window size
and overlap fraction (in `[0,1)`) such that the computed per-axis step is
≥ 1, and either supported iteration order, `generateForSize` succeeds and
every pixel `(i, j)` with `0 ≤ i < width`, `0 ≤ j < height` lies in at
least one returned window, so the union of the windows covers
`[0, width) × [0, height)`. -/
theorem generateForSize_coverage {α : Type} (width height maxWindowSize : Int)
    (overlapPercent : ℚ) (dimOrder : List String) (transforms : List α)
    (ow oh : Option Int) (io : List String)
    (hw : 1 ≤ width) (hh : 1 ≤ height)
    (hq0 : 0 ≤ overlapPercent) (hq1 : overlapPercent < 1)
    (hsx : 1 ≤ stepSize (clipWindowSize maxWindowSize ow width) overlapPercent)
    (hsy : 1 ≤ stepSize (clipWindowSize maxWindowSize oh height) overlapPercent)
    (hio : io = IterOrder.TransformHeightWidth ∨ io = IterOrder.TransformWidthHeight) :
    ∃ l, generateForSize width height dimOrder maxWindowSize overlapPercent transforms
        ow oh io = Except.ok l ∧
      ∀ i j : Int, 0 ≤ i → i < width → 0 ≤ j → j < height →
        ∃ win ∈ l, win.x ≤ i ∧ i < win.x + win.w ∧ win.y ≤ j ∧ j < win.y + win.h := by
  have hwsX : 1 ≤ clipWindowSize maxWindowSize ow width :=
    one_le_windowSize_of_step hq0 hq1 hsx
  have hwsY : 1 ≤ clipWindowSize maxWindowSize oh height :=
    one_le_windowSize_of_step hq0 hq1 hsy
  have hstX : stepSize (clipWindowSize maxWindowSize ow width) overlapPercent ≤
      clipWindowSize maxWindowSize ow width := stepSize_le_windowSize (by omega) hq0
  have hstY : stepSize (clipWindowSize maxWindowSize oh height) overlapPercent ≤
      clipWindowSize maxWindowSize oh height := stepSize_le_windowSize (by omega) hq0
  have hx0 : stepSize (clipWindowSize maxWindowSize ow width) overlapPercent ≠ 0 := by omega
  have hy0 : stepSize (clipWindowSize maxWindowSize oh height) overlapPercent ≠ 0 := by omega
  obtain ⟨l, hok, hiff⟩ := generateForSize_eq_ok hx0 hy0 hio
  refine ⟨l, hok, ?_⟩
  intro i j hi0 hiw hj0 hjh
  obtain ⟨ox, hoxm, hox1, hox2⟩ := axisOffsets_cover hsx hstX hi0 hiw
  obtain ⟨oy, hoym, hoy1, hoy2⟩ := axisOffsets_cover hsy hstY hj0 hjh
  refine ⟨⟨ox, oy, clipWindowSize maxWindowSize ow width,
    clipWindowSize maxWindowSize oh height, dimOrder, none⟩,
    (hiff _).mpr ⟨hoxm, hoym, rfl, rfl, rfl, List.mem_cons_self _ _⟩,
    hox1, hox2, hoy1, hoy2⟩

/-- Witness for C1 at `width = height = 10`, `maxWindowSize = 3`, zero
overlap, `TransformWidthHeight` order. -/
theorem generateForSize_coverage_witness :
    (1 : Int) ≤ 10 ∧ (1 : Int) ≤ 10 ∧ (0 : ℚ) ≤ 0 ∧ (0 : ℚ) < 1 ∧
    (1 : Int) ≤ stepSize (clipWindowSize 3 none 10) 0 ∧
    (1 : Int) ≤ stepSize (clipWindowSize 3 none 10) 0 ∧
    (IterOrder.TransformWidthHeight = IterOrder.TransformHeightWidth ∨
      IterOrder.TransformWidthHeight = IterOrder.TransformWidthHeight) ∧
    (∃ l, generateForSize 10 10 DimOrder.HeightWidthChannel 3 0 ([] : List Unit)
        none none IterOrder.TransformWidthHeight = Except.ok l ∧
      ∀ i j : Int, 0 ≤ i → i < 10 → 0 ≤ j → j < 10 →
        ∃ win ∈ l, win.x ≤ i ∧ i < win.x + win.w ∧ win.y ≤ j ∧ j < win.y + win.h) :=
  ⟨by decide, by decide, le_refl 0, by norm_num, by simp only [stepSize_zero]; decide,
    by simp only [stepSize_zero]; decide, Or.inr rfl,
    generateForSize_coverage 10 10 3 0 DimOrder.HeightWidthChannel [] none none
      IterOrder.TransformWidthHeight (by decide) (by decide) (le_refl 0) (by norm_num)
      (by simp only [stepSize_zero]; decide) (by simp only [stepSize_zero]; decide)
      (Or.inr rfl)⟩

/-- Claim C2 (no out-of-bounds windows): for width ≥ 1, height ≥ 1, clipped
window sizes ≥ 1 and per-axis steps ≥ 1, every window in any successful
result of `generateForSize` satisfies the invariants `w > 0`, `h > 0`,
`x ≥ 0`, `y ≥ 0`, `x + w ≤ width` and `y + h ≤ height`. -/
theorem generateForSize_inbounds {α : Type} (width height maxWindowSize : Int)
    (overlapPercent : ℚ) (dimOrder : List String) (transforms : List α)
    (ow oh : Option Int) (io : List String)
    (hw : 1 ≤ width) (hh : 1 ≤ height)
    (hwsx : 1 ≤ clipWindowSize maxWindowSize ow width)
    (hwsy : 1 ≤ clipWindowSize maxWindowSize oh height)
    (hsx : 1 ≤ stepSize (clipWindowSize maxWindowSize ow width) overlapPercent)
    (hsy : 1 ≤ stepSize (clipWindowSize maxWindowSize oh height) overlapPercent) :
    ∀ l, generateForSize width height dimOrder maxWindowSize overlapPercent transforms
        ow oh io = Except.ok l →
      ∀ win ∈ l, 0 < win.w ∧ 0 < win.h ∧ 0 ≤ win.x ∧ 0 ≤ win.y ∧
        win.x + win.w ≤ width ∧ win.y + win.h ≤ height := by
  intro l hok win hwin
  obtain ⟨h1, h2, h3, h4, h5, h6⟩ := mem_of_generateForSize_ok hok hwin
  have hbX := axisOffsets_bounds (by omega) (clipWindowSize_le maxWindowSize ow width) h1
  have hbY := axisOffsets_bounds (by omega) (clipWindowSize_le maxWindowSize oh height) h2
  exact ⟨by omega, by omega, hbX.1, hbY.1, by omega, by omega⟩

/-- Witness for C2 at `width = height = 4`, `maxWindowSize = 2`, zero
overlap, checked on the first window of the run. -/
theorem generateForSize_inbounds_witness :
    (1 : Int) ≤ 4 ∧ (1 : Int) ≤ 4 ∧
    (1 : Int) ≤ clipWindowSize 2 none 4 ∧ (1 : Int) ≤ clipWindowSize 2 none 4 ∧
    (1 : Int) ≤ stepSize (clipWindowSize 2 none 4) 0 ∧
    (1 : Int) ≤ stepSize (clipWindowSize 2 none 4) 0 ∧
    (0 < (2 : Int) ∧ 0 < (2 : Int) ∧ (0 : Int) ≤ 0 ∧ (0 : Int) ≤ 0 ∧
      (0 : Int) + 2 ≤ 4 ∧ (0 : Int) + 2 ≤ 4) :=
  ⟨by decide, by decide, by decide, by decide,
    by simp only [stepSize_zero]; decide, by simp only [stepSize_zero]; decide,
    generateForSize_inbounds 4 4 2 0 DimOrder.HeightWidthChannel ([] : List Unit)
      none none IterOrder.TransformWidthHeight (by decide) (by decide) (by decide) (by decide)
      (by simp only [stepSize_zero]; decide) (by simp only [stepSize_zero]; decide)
      [⟨0, 0, 2, 2, DimOrder.HeightWidthChannel, none⟩,
        ⟨2, 0, 2, 2, DimOrder.HeightWidthChannel, none⟩,
        ⟨0, 2, 2, 2, DimOrder.HeightWidthChannel, none⟩,
        ⟨2, 2, 2, 2, DimOrder.HeightWidthChannel, none⟩]
      (by simp only [generateForSize, stepSize_zero]; rfl)
      ⟨0, 0, 2, 2, DimOrder.HeightWidthChannel, none⟩ (by decide)⟩

/-- Claim C3 (iteration-order contract): under `TransformHeightWidth` the
triples are the lexicographic product with `x` slowest, `y` next and the
transform innermost; under `TransformWidthHeight` they are the product with
`y` slowest; and within a fixed `(x, y)` the transforms appear in list
order, identity (`none`) first, because the transform list is the innermost
factor `[None] + transforms`.  On X-offsets `{0, 5}`, Y-offsets `{0, 5}`
and transform list `[t1]` the two orders yield exactly the spec's example
sequences. -/
theorem iterate_dims_order_contract {α β γ : Type} (xs : List α) (ys : List β) (ts : List γ)
    (t1 : γ) :
    iterate_dims xs ys ts IterOrder.TransformHeightWidth = Except.ok (xs ×ˢ ys ×ˢ ts) ∧
    iterate_dims xs ys ts IterOrder.TransformWidthHeight =
      Except.ok ((ys ×ˢ xs ×ˢ ts).map fun p => (p.2.1, p.1, p.2.2)) ∧
    iterate_dims [(0 : Int), 5] [(0 : Int), 5] [none, some t1] IterOrder.TransformHeightWidth =
      Except.ok [(0, 0, none), (0, 0, some t1), (0, 5, none), (0, 5, some t1),
        (5, 0, none), (5, 0, some t1), (5, 5, none), (5, 5, some t1)] ∧
    iterate_dims [(0 : Int), 5] [(0 : Int), 5] [none, some t1] IterOrder.TransformWidthHeight =
      Except.ok [(0, 0, none), (0, 0, some t1), (5, 0, none), (5, 0, some t1),
        (0, 5, none), (0, 5, some t1), (5, 5, none), (5, 5, some t1)] :=
  ⟨by unfold iterate_dims; rw [if_pos rfl, flatMap_eq_product],
   by unfold iterate_dims; rw [if_neg (by decide), if_pos rfl, flatMap_eq_product_swap],
   rfl, rfl⟩

/-- Claim C4 (bounded overlap of adjacent non-final windows): any two
consecutive offsets of the generated arithmetic progression (the offsets
before the coverage append, so neither is the specially appended final
offset) differ by exactly `stepSize`, and the windows of size `ws` placed
at them overlap in exactly `floor(ws * overlapFraction)` pixels. -/
theorem generateForSize_adjacent_overlap (extent ws : Int) (q : ℚ) (k : Nat)
    (hws : 1 ≤ ws) (hq0 : 0 ≤ q) (hstep : 1 ≤ stepSize ws q)
    (hk : k + 1 < (pyRange 0 (extent - ws + 1) (stepSize ws q)).length) :
    (pyRange 0 (extent - ws + 1) (stepSize ws q)).get ⟨k + 1, hk⟩ -
      (pyRange 0 (extent - ws + 1) (stepSize ws q)).get ⟨k, Nat.lt_of_succ_lt hk⟩ =
      stepSize ws q ∧
    (Finset.Ico ((pyRange 0 (extent - ws + 1) (stepSize ws q)).get ⟨k, Nat.lt_of_succ_lt hk⟩)
        ((pyRange 0 (extent - ws + 1) (stepSize ws q)).get ⟨k, Nat.lt_of_succ_lt hk⟩ + ws) ∩
      Finset.Ico ((pyRange 0 (extent - ws + 1) (stepSize ws q)).get ⟨k + 1, hk⟩)
        ((pyRange 0 (extent - ws + 1) (stepSize ws q)).get ⟨k + 1, hk⟩ + ws)).card =
      (windowOverlap ws q).toNat ∧
    ((windowOverlap ws q).toNat : Int) = windowOverlap ws q := by
  have hov : 0 ≤ windowOverlap ws q := windowOverlap_nonneg (by omega) hq0
  have hs : stepSize ws q = ws - windowOverlap ws q := rfl
  rw [pyRange_get (Nat.lt_of_succ_lt hk), pyRange_get hk]
  push_cast
  have h01 : (0 : Int) + (k : Int) * stepSize ws q ≤
      0 + ((k : Int) + 1) * stepSize ws q := by nlinarith
  refine ⟨by ring, ?_, Int.toNat_of_nonneg hov⟩
  rw [Finset.Ico_inter_Ico, Int.card_Ico,
    max_eq_right h01, min_eq_left (by omega : (0 : Int) + (k : Int) * stepSize ws q + ws ≤
      0 + ((k : Int) + 1) * stepSize ws q + ws)]
  congr 1
  rw [hs]
  ring

/-- Witness for C4 at `extent = 10`, `ws = 3`, zero overlap fraction,
first pair of offsets. -/
theorem generateForSize_adjacent_overlap_witness :
    (1 : Int) ≤ 3 ∧ (0 : ℚ) ≤ 0 ∧ (1 : Int) ≤ stepSize 3 0 ∧
    ∃ hk : 0 + 1 < (pyRange 0 (10 - 3 + 1) (stepSize 3 0)).length,
      (pyRange 0 (10 - 3 + 1) (stepSize 3 0)).get ⟨0 + 1, hk⟩ -
        (pyRange 0 (10 - 3 + 1) (stepSize 3 0)).get ⟨0, Nat.lt_of_succ_lt hk⟩ =
        stepSize 3 0 := by
  refine ⟨by decide, le_refl 0, by simp only [stepSize_zero]; decide, ?_⟩
  have hk : 0 + 1 < (pyRange 0 (10 - 3 + 1) (stepSize 3 0)).length := by
    simp only [stepSize_zero]
    decide
  exact ⟨hk, (generateForSize_adjacent_overlap 10 3 0 0 (by decide) (le_refl 0)
    (by simp only [stepSize_zero]; decide) hk).1⟩

/-- Claim C5 (index specification): for a channel-first window, `indices`
returns `[fullRange, rowRange(y, y+h), colRange(x, x+w)]` when
`includeChannel` is true and `[rowRange, colRange]` when it is false; for a
channel-last window it always returns the two-element `[rowRange,
colRange]` regardless of `includeChannel`; and the returned ranges select
exactly the half-open intervals `[y, y+h)` and `[x, x+w)`. -/
theorem indices_spec {α : Type} (x y w h : Int) (t : Option α) (inc : Bool) :
    (SlidingWindow.mk x y w h DimOrder.ChannelHeightWidth t).indices true =
      Except.ok [Slice.all, Slice.range y (y + h), Slice.range x (x + w)] ∧
    (SlidingWindow.mk x y w h DimOrder.ChannelHeightWidth t).indices false =
      Except.ok [Slice.range y (y + h), Slice.range x (x + w)] ∧
    (SlidingWindow.mk x y w h DimOrder.HeightWidthChannel t).indices inc =
      Except.ok [Slice.range y (y + h), Slice.range x (x + w)] ∧
    (∀ i : Int, (Slice.range y (y + h)).selects i = true ↔ y ≤ i ∧ i < y + h) ∧
    (∀ i : Int, (Slice.range x (x + w)).selects i = true ↔ x ≤ i ∧ i < x + w) :=
  ⟨rfl, rfl, rfl, fun i => by simp [Slice.selects], fun i => by simp [Slice.selects]⟩

/-- Claim C6 (transform application): `apply` slices the matrix with the
index specification computed with `includeChannel = true` and returns the
sliced view unchanged when no transform is bound, or exactly
`transform(slicedView)` when a transform is bound; errors of `indices`
propagate unchanged and nothing else is done. -/
theorem apply_spec {M V : Type} (win : SlidingWindow (V → V)) (getItem : M → List Slice → V)
    (matrix : M) :
    (win.transform = none →
      win.apply getItem matrix = (win.indices true).map fun idx => getItem matrix idx) ∧
    ∀ f : V → V, win.transform = some f →
      win.apply getItem matrix = (win.indices true).map fun idx => f (getItem matrix idx) := by
  constructor
  · intro ht
    cases hidx : win.indices true with
    | error e => simp [SlidingWindow.apply, hidx, Except.map]
    | ok idx => simp [SlidingWindow.apply, hidx, ht, Except.map]
  · intro f ht
    cases hidx : win.indices true with
    | error e => simp [SlidingWindow.apply, hidx, Except.map]
    | ok idx => simp [SlidingWindow.apply, hidx, ht, Except.map]

/-- Witness for C6 on a transform-free channel-last window, with the array
collaborator instantiated by a function counting the slice components. -/
theorem apply_spec_witness :
    ((⟨2, 3, 4, 5, DimOrder.HeightWidthChannel, none⟩ : SlidingWindow (Nat → Nat)).transform
        = none) ∧
    (⟨2, 3, 4, 5, DimOrder.HeightWidthChannel, none⟩ : SlidingWindow (Nat → Nat)).apply
        (fun (_ : Unit) (l : List Slice) => l.length) () =
      ((⟨2, 3, 4, 5, DimOrder.HeightWidthChannel, none⟩ :
          SlidingWindow (Nat → Nat)).indices true).map
        fun idx => (fun (_ : Unit) (l : List Slice) => l.length) () idx :=
  ⟨rfl, (apply_spec _ _ _).1 rfl⟩

/-- Counterexample to claim C7: at `width = -5 ≤ 0` the code does not fail
with any error condition - `generateForSize` returns a window list (with a
degenerate window of width `-5`), so the claim "no window list is returned"
is false on the code. -/
theorem generateForSize_no_validation :
    generateForSize (-5) 10 DimOrder.HeightWidthChannel 10 0 ([] : List Unit) none none
      IterOrder.TransformWidthHeight =
      Except.ok [⟨0, 0, -5, 10, DimOrder.HeightWidthChannel, none⟩] := by
  simp only [generateForSize, stepSize_zero]
  rfl

/-- Claim C7 as amended: `generateForSize` performs no input validation;
there is no InvalidDimensions or InvalidWindowSize failure.  When a
computed step size is exactly 0 - e.g. `width = 0` with a nonnegative
window size, so the clipped window size and hence the step collapse to 0 -
the call fails with the `ValueError` that Python's `range` raises on a zero
step; otherwise (see the counterexample) a window list is returned even for
nonpositive dimensions. -/
theorem generateForSize_zero_width {α : Type} (height : Int) (dimOrder : List String)
    (maxWindowSize : Int) (q : ℚ) (ts : List α) (io : List String)
    (hm : 0 ≤ maxWindowSize) :
    generateForSize 0 height dimOrder maxWindowSize q ts none none io =
      Except.error PyError.valueError := by
  have hclip : clipWindowSize maxWindowSize none 0 = 0 := min_eq_right hm
  have hstep : stepSize (clipWindowSize maxWindowSize none 0) q = 0 := by
    rw [hclip]
    unfold stepSize windowOverlap
    simp
  unfold generateForSize
  rw [if_pos (Or.inl hstep)]

/-- Witness for the amended C7 at `width = 0`, `height = 10`,
`maxWindowSize = 10`. -/
theorem generateForSize_zero_width_witness :
    (0 : Int) ≤ 10 ∧
    generateForSize 0 10 DimOrder.HeightWidthChannel 10 0 ([] : List Unit) none none
      IterOrder.TransformWidthHeight = Except.error PyError.valueError :=
  ⟨by decide, generateForSize_zero_width 10 DimOrder.HeightWidthChannel 10 0 []
    IterOrder.TransformWidthHeight (by decide)⟩

/-- Claim C8 (closed order enumerations): for every `dimOrder` value other
than the two enumeration variants, `indices` fails at the unsupported-
dimension-order raise site, and for every `iterorder` value other than the
two variants, `iterate_dims` fails at the unsupported-iteration-order raise
site. -/
theorem unsupported_order_errors {α β γ δ : Type} (win : SlidingWindow α) (inc : Bool)
    (xs : List β) (ys : List γ) (ts : List δ) (io : List String)
    (hd1 : win.dimOrder ≠ DimOrder.HeightWidthChannel)
    (hd2 : win.dimOrder ≠ DimOrder.ChannelHeightWidth)
    (hio1 : io ≠ IterOrder.TransformHeightWidth)
    (hio2 : io ≠ IterOrder.TransformWidthHeight) :
    win.indices inc = Except.error PyError.unsupportedDimOrder ∧
    iterate_dims xs ys ts io = Except.error PyError.unsupportedIterOrder := by
  constructor
  · unfold SlidingWindow.indices
    rw [if_neg hd1, if_neg hd2]
  · unfold iterate_dims
    rw [if_neg hio1, if_neg hio2]

/-- Witness for C8 with the unsupported orders `['w', 'h']` and `['t']`. -/
theorem unsupported_order_errors_witness :
    ((⟨0, 0, 1, 1, ["w", "h"], (none : Option Unit)⟩ : SlidingWindow Unit).dimOrder ≠
        DimOrder.HeightWidthChannel) ∧
    ((⟨0, 0, 1, 1, ["w", "h"], (none : Option Unit)⟩ : SlidingWindow Unit).dimOrder ≠
        DimOrder.ChannelHeightWidth) ∧
    (["t"] ≠ IterOrder.TransformHeightWidth) ∧ (["t"] ≠ IterOrder.TransformWidthHeight) ∧
    ((⟨0, 0, 1, 1, ["w", "h"], (none : Option Unit)⟩ : SlidingWindow Unit).indices true =
        Except.error PyError.unsupportedDimOrder ∧
      iterate_dims [(0 : Int)] [(0 : Int)] [(none : Option Unit)] ["t"] =
        Except.error PyError.unsupportedIterOrder) :=
  ⟨by decide, by decide, by decide, by decide,
    unsupported_order_errors ⟨0, 0, 1, 1, ["w", "h"], none⟩ true [(0 : Int)] [(0 : Int)]
      [(none : Option Unit)] ["t"] (by decide) (by decide) (by decide) (by decide)⟩

/-- Claim C9 (count-derived sizing): for nonzero counts,
`generateForNumberOfWindows` on a channel-last shape `[height, width,
channels]` derives `windowWidth = ceil(width / countX)` and `windowHeight =
ceil(height / countY)` and delegates to `generateForSize` with both
overrides set; in particular for `width = 100`, `height = 50`, `countX =
3`, `countY = 2`, zero overlap it derives window sizes `34 × 25` and
produces exactly the six windows with X-offsets `{0, 34, 66}` and
Y-offsets `{0, 25}`. -/
theorem generateForNumberOfWindows_spec {α : Type} (hgt wd c countY countX : Int) (q : ℚ)
    (ts : List α) (io : List String) (hx : countX ≠ 0) (hy : countY ≠ 0) :
    (generateForNumberOfWindows [hgt, wd, c] DimOrder.HeightWidthChannel (countY, countX)
        q ts io =
      generateForSize wd hgt DimOrder.HeightWidthChannel 0 q ts
        (some ⌈(wd : ℚ) / (countX : ℚ)⌉) (some ⌈(hgt : ℚ) / (countY : ℚ)⌉) io) ∧
    ⌈((100 : Int) : ℚ) / ((3 : Int) : ℚ)⌉ = 34 ∧
    ⌈((50 : Int) : ℚ) / ((2 : Int) : ℚ)⌉ = 25 ∧
    generateForNumberOfWindows [50, 100, 3] DimOrder.HeightWidthChannel (2, 3) 0
        ([] : List α) IterOrder.TransformWidthHeight =
      Except.ok [⟨0, 0, 34, 25, DimOrder.HeightWidthChannel, none⟩,
        ⟨34, 0, 34, 25, DimOrder.HeightWidthChannel, none⟩,
        ⟨66, 0, 34, 25, DimOrder.HeightWidthChannel, none⟩,
        ⟨0, 25, 34, 25, DimOrder.HeightWidthChannel, none⟩,
        ⟨34, 25, 34, 25, DimOrder.HeightWidthChannel, none⟩,
        ⟨66, 25, 34, 25, DimOrder.HeightWidthChannel, none⟩] := by
  have h1 : ⌈((100 : Int) : ℚ) / ((3 : Int) : ℚ)⌉ = 34 := by
    push_cast
    rw [Int.ceil_eq_iff]
    norm_num
  have h2 : ⌈((50 : Int) : ℚ) / ((2 : Int) : ℚ)⌉ = 25 := by
    push_cast
    rw [Int.ceil_eq_iff]
    norm_num
  refine ⟨?_, h1, h2, ?_⟩
  · have hred : generateForNumberOfWindows [hgt, wd, c] DimOrder.HeightWidthChannel
        (countY, countX) q ts io =
        if countX = 0 then Except.error PyError.zeroDivision
        else if countY = 0 then Except.error PyError.zeroDivision
        else generateForSize wd hgt DimOrder.HeightWidthChannel 0 q ts
          (some ⌈(wd : ℚ) / (countX : ℚ)⌉) (some ⌈(hgt : ℚ) / (countY : ℚ)⌉) io := rfl
    rw [hred, if_neg hx, if_neg hy]
  · have hred2 : generateForNumberOfWindows [50, 100, 3] DimOrder.HeightWidthChannel (2, 3) 0
        ([] : List α) IterOrder.TransformWidthHeight =
        generateForSize 100 50 DimOrder.HeightWidthChannel 0 0 []
          (some ⌈((100 : Int) : ℚ) / ((3 : Int) : ℚ)⌉)
          (some ⌈((50 : Int) : ℚ) / ((2 : Int) : ℚ)⌉)
          IterOrder.TransformWidthHeight := rfl
    rw [hred2, h1, h2]
    simp only [generateForSize, stepSize_zero]
    rfl

/-- Witness for C9 at the spec's concrete example, discharging the nonzero
count hypotheses at `countX = 3`, `countY = 2`. -/
theorem generateForNumberOfWindows_spec_witness :
    (3 : Int) ≠ 0 ∧ (2 : Int) ≠ 0 ∧
    generateForNumberOfWindows [50, 100, 3] DimOrder.HeightWidthChannel (2, 3) 0
        ([] : List Unit) IterOrder.TransformWidthHeight =
      generateForSize 100 50 DimOrder.HeightWidthChannel 0 0 []
        (some ⌈((100 : Int) : ℚ) / ((3 : Int) : ℚ)⌉)
        (some ⌈((50 : Int) : ℚ) / ((2 : Int) : ℚ)⌉) IterOrder.TransformWidthHeight :=
  ⟨by decide, by decide,
    (generateForNumberOfWindows_spec 50 100 3 2 3 0 ([] : List Unit)
      IterOrder.TransformWidthHeight (by decide) (by decide)).1⟩

/-- Claim C10 (frame effect on the transforms list): the embedding of
`generateForSize` is a pure function of its arguments, so repeated calls
with the same arguments give the same windows, and the transform entry of
the output windows comes from the freshly built list `[None] + transforms`
(modelled by `none :: transforms.map some`, the non-mutating list
concatenation of the source): every successful output decomposes into
blocks - one per offset pair - each carrying exactly `none` followed by the
caller's transforms in order, with the caller's list embedded intact and
unmodified.  (That the Python call also never mutates the caller's list
object follows from the source using only `[None] + transforms`, which
builds a new list; aliasing itself is invisible in this pure embedding.) -/
theorem generateForSize_transforms_fresh {α : Type} (width height maxWindowSize : Int)
    (overlapPercent : ℚ) (dimOrder : List String) (transforms : List α)
    (ow oh : Option Int) (io : List String) :
    generateForSize width height dimOrder maxWindowSize overlapPercent transforms ow oh io =
      generateForSize width height dimOrder maxWindowSize overlapPercent transforms ow oh io ∧
    ∀ l, generateForSize width height dimOrder maxWindowSize overlapPercent transforms
        ow oh io = Except.ok l →
      ∃ offs : List (Int × Int),
        l.map (fun win => (win.x, win.y, win.transform)) =
          offs.flatMap fun p =>
            ((none : Option α) :: transforms.map some).map fun t => (p.1, p.2, t) := by
  refine ⟨rfl, ?_⟩
  intro l hok
  unfold generateForSize at hok
  by_cases hg : stepSize (clipWindowSize maxWindowSize ow width) overlapPercent = 0 ∨
      stepSize (clipWindowSize maxWindowSize oh height) overlapPercent = 0
  · rw [if_pos hg] at hok
    exact absurd hok (by simp)
  · rw [if_neg hg] at hok
    revert hok
    unfold iterate_dims
    split_ifs with hi1 hi2
    · intro hok
      simp only [Except.map] at hok
      injection hok with hl
      subst hl
      rw [List.map_map]
      refine ⟨(axisOffsets width (clipWindowSize maxWindowSize ow width)
        (stepSize (clipWindowSize maxWindowSize ow width) overlapPercent)) ×ˢ
        (axisOffsets height (clipWindowSize maxWindowSize oh height)
          (stepSize (clipWindowSize maxWindowSize oh height) overlapPercent)), ?_⟩
      rw [show ((fun win : SlidingWindow α => (win.x, win.y, win.transform)) ∘
          (fun p : Int × Int × Option α =>
            (⟨p.1, p.2.1, clipWindowSize maxWindowSize ow width,
              clipWindowSize maxWindowSize oh height, dimOrder, p.2.2⟩ : SlidingWindow α))) =
          id from funext fun p => rfl, List.map_id]
      exact (product_flatMap _ _ _).symm
    · intro hok
      simp only [Except.map] at hok
      injection hok with hl
      subst hl
      rw [List.map_map]
      refine ⟨((axisOffsets height (clipWindowSize maxWindowSize oh height)
        (stepSize (clipWindowSize maxWindowSize oh height) overlapPercent)) ×ˢ
        (axisOffsets width (clipWindowSize maxWindowSize ow width)
          (stepSize (clipWindowSize maxWindowSize ow width) overlapPercent))).map
        (fun p => (p.2, p.1)), ?_⟩
      rw [show ((fun win : SlidingWindow α => (win.x, win.y, win.transform)) ∘
          (fun p : Int × Int × Option α =>
            (⟨p.1, p.2.1, clipWindowSize maxWindowSize ow width,
              clipWindowSize maxWindowSize oh height, dimOrder, p.2.2⟩ : SlidingWindow α))) =
          id from funext fun p => rfl, List.map_id, List.flatMap_map]
      exact (product_swap_flatMap _ _ _).symm
    · intro hok
      exact absurd hok (by simp [Except.map])

/-- Witness for C10 at `width = height = 4`, `maxWindowSize = 2`, zero
overlap and one caller transform. -/
theorem generateForSize_transforms_fresh_witness :
    ∃ offs : List (Int × Int),
      ([⟨0, 0, 2, 2, DimOrder.HeightWidthChannel, none⟩,
        ⟨0, 0, 2, 2, DimOrder.HeightWidthChannel, some ()⟩,
        ⟨2, 0, 2, 2, DimOrder.HeightWidthChannel, none⟩,
        ⟨2, 0, 2, 2, DimOrder.HeightWidthChannel, some ()⟩,
        ⟨0, 2, 2, 2, DimOrder.HeightWidthChannel, none⟩,
        ⟨0, 2, 2, 2, DimOrder.HeightWidthChannel, some ()⟩,
        ⟨2, 2, 2, 2, DimOrder.HeightWidthChannel, none⟩,
        ⟨2, 2, 2, 2, DimOrder.HeightWidthChannel, some ()⟩] :
          List (SlidingWindow Unit)).map (fun win => (win.x, win.y, win.transform)) =
        offs.flatMap fun p =>
          ((none : Option Unit) :: [()].map some).map fun t => (p.1, p.2, t) :=
  (generateForSize_transforms_fresh 4 4 2 0 DimOrder.HeightWidthChannel [()] none none
    IterOrder.TransformWidthHeight).2 _ (by simp only [generateForSize, stepSize_zero]; rfl)
